import Mathlib

/-!
Shallow embedding of `src/app.py` (bluedata-downloads-endpoint): a small Flask
app that lists objects of a cloud-storage bucket and signs download URLs.
The storage provider (list-objects, sign-URL) is modelled as a black box whose
calls may fail; a Python exception escaping a handler is modelled as
`Except.error`, a JSON response as `Except.ok` carrying a `Resp`.  Each handler
additionally returns the number of provider calls it performed.  Python string
primitives (split, strip, substring test, int(), string comparison) are
modelled structurally on `List Char` so that everything evaluates by `decide`.
-/

namespace Bluedata

/-- A provider timestamp: the fields of a Python `datetime` that `isoformat` renders. -/
structure DateTime where
  year : Nat
  month : Nat
  day : Nat
  hour : Nat
  minute : Nat
  second : Nat
deriving DecidableEq

/-- Zero-pad the decimal representation of `n` to width `w`. -/
def pad (w : Nat) (n : Nat) : String :=
  let s := Nat.repr n
  String.mk (List.replicate (w - s.length) '0') ++ s

/-- `datetime.isoformat()` (no microseconds): `YYYY-MM-DDTHH:MM:SS`. -/
def DateTime.isoformat (d : DateTime) : String :=
  pad 4 d.year ++ "-" ++ pad 2 d.month ++ "-" ++ pad 2 d.day ++ "T" ++
    pad 2 d.hour ++ ":" ++ pad 2 d.minute ++ ":" ++ pad 2 d.second

/-- A storage object as returned by the provider list call (`b.name`, `b.size`, `b.updated`). -/
structure Blob where
  name : String
  size : Option Nat := none
  updated : Option DateTime := none
deriving DecidableEq

/-- The storage provider as a black box: list-objects takes (bucket, key-prefix),
sign-URL takes (bucket, blob name); either call may fail with an error message. -/
structure Provider where
  listBlobs : String → String → Except String (List Blob)
  sign : String → String → Except String String

/-- Query parameters of a request (`request.args`); `none` models an absent parameter. -/
structure Args where
  date : Option String := none
  pfx : Option String := none
  contains : Option String := none
  limit : Option String := none
  latest : Option String := none

/-- Environment configuration relevant to the handlers: the bucket name (`GCS_BUCKET`). -/
structure Config where
  bucket : String

/-- One entry of the `files` array.  `list_daily` entries carry no updated key,
modelled as `updated = none`. -/
structure Item where
  name : String
  path : String
  size_bytes : Nat
  signed_url : String
  updated : Option String := none
deriving DecidableEq

/-- A JSON response: HTTP status plus the fields the handlers emit. -/
structure Resp where
  status : Nat
  error : Option String := none
  mode : Option String := none
  date : Option String := none
  pfx : Option String := none
  count : Nat := 0
  files : List Item := []
deriving DecidableEq

instance {ε α : Type} [DecidableEq ε] [DecidableEq α] : DecidableEq (Except ε α)
  | Except.error a, Except.error b =>
    if h : a = b then Decidable.isTrue (congrArg Except.error h)
    else Decidable.isFalse (fun c => h (Except.error.inj c))
  | Except.error _, Except.ok _ => Decidable.isFalse Except.noConfusion
  | Except.ok _, Except.error _ => Decidable.isFalse Except.noConfusion
  | Except.ok a, Except.ok b =>
    if h : a = b then Decidable.isTrue (congrArg Except.ok h)
    else Decidable.isFalse (fun c => h (Except.ok.inj c))

/-- Python `s.split("/")[-1]`: the characters after the last slash. -/
def lastSeg (s : String) : String :=
  String.mk (s.data.foldl (fun acc c => if c = '/' then [] else acc ++ [c]) [])

/-- Python `s.endswith("/")`. -/
def endsWithSlash (s : String) : Bool := decide (s.data.getLast? = some '/')

/-- Auxiliary to `strContains`: does `sub` occur as a contiguous run in the list? -/
def containsCh (sub : List Char) : List Char → Bool
  | [] => sub.isEmpty
  | c :: cs => sub.isPrefixOf (c :: cs) || containsCh sub cs

/-- Python substring test `sub in s`. -/
def strContains (s sub : String) : Bool := containsCh sub.data s.data

/-- Python `s.strip()`: remove leading and trailing whitespace. -/
def pyStrip (s : String) : String :=
  String.mk (((s.data.dropWhile Char.isWhitespace).reverse.dropWhile Char.isWhitespace).reverse)

/-- Decimal value of a digit run. -/
def digitsVal (l : List Char) : Nat := l.foldl (fun a c => a * 10 + (c.toNat - 48)) 0

/-- Python `int(str)`: optional surrounding whitespace, optional sign, decimal digits;
`none` models the `ValueError` raised on any other input. -/
def pyInt (s : String) : Option Int :=
  match (pyStrip s).data with
  | '-' :: r =>
    if r ≠ [] ∧ r.all Char.isDigit then some (-(digitsVal r : Int)) else none
  | '+' :: r =>
    if r ≠ [] ∧ r.all Char.isDigit then some ((digitsVal r : Int)) else none
  | r =>
    if r ≠ [] ∧ r.all Char.isDigit then some ((digitsVal r : Int)) else none

/-- Message of the `ValueError` that `int()` raises on a malformed literal. -/
def valueErrorMsg : String := "ValueError: invalid literal for int with base 10"

/-- Python slicing `l[:k]`, including negative `k` (drop the last `-k` elements). -/
def pySliceTo {α : Type} (l : List α) (k : Int) : List α :=
  if 0 ≤ k then l.take k.toNat else l.take (l.length - (-k).toNat)

/-- The routes registered on the Flask app: the `@app.get` decorators of `app.py`. -/
def routes : List (String × String) :=
  [("GET", "/health"), ("GET", "/"), ("GET", "/list_daily"), ("GET", "/list_by_prefix")]

/-- Python `<` on strings as lists of code points (lexicographic). -/
def chLt : List Char → List Char → Bool
  | [], [] => false
  | [], _ :: _ => true
  | _ :: _, [] => false
  | a :: as, b :: bs =>
    if a.toNat < b.toNat then true
    else if b.toNat < a.toNat then false
    else chLt as bs

/-- Python `<` on strings. -/
def strLt (a b : String) : Bool := chLt a.data b.data

/-- Python `<=` on strings. -/
def strLe (a b : String) : Bool := strLt a b || decide (a = b)

/-- Sort key of `list_by_prefix`: the Python tuple `(x["updated"] or "", x["name"])`. -/
def keyB (x : Item) : String × String := (x.updated.getD "", x.name)

/-- Python `<` on `(String, String)` tuples (lexicographic). -/
def tupLtB (a b : String × String) : Bool :=
  strLt a.1 b.1 || (decide (a.1 = b.1) && strLt a.2 b.2)

/-- Python `<=` on `(String, String)` tuples. -/
def tupLeB (a b : String × String) : Bool := tupLtB a b || decide (a = b)

/-- Descending comparison realizing `sort(key=..., reverse=True)` of `list_by_prefix`:
`a` may precede `b` when the key of `a` is at least the key of `b`. -/
def updGe (a b : Item) : Prop := tupLeB (keyB b) (keyB a) = true

/-- Ascending comparison by `name` realizing the `list_daily` sort. -/
def nameLe (a b : Item) : Prop := strLe a.name b.name = true

instance : DecidableRel updGe :=
  fun a b => inferInstanceAs (Decidable (tupLeB (keyB b) (keyB a) = true))

instance : DecidableRel nameLe :=
  fun a b => inferInstanceAs (Decidable (strLe a.name b.name = true))

/-- The accumulation loop of `list_daily` (app.py lines 64-76): skip directory
markers, filter on the base name, sign each surviving blob.  Returns the items
(or the first uncaught sign failure) and the number of sign calls performed. -/
def dailyCollect (prov : Provider) (bucket contains : String) :
    List Blob → Except String (List Item) × Nat
  | [] => (Except.ok [], 0)
  | b :: bs =>
    if endsWithSlash b.name then dailyCollect prov bucket contains bs
    else
      let name := lastSeg b.name
      if contains ≠ "" ∧ ¬ strContains name contains then dailyCollect prov bucket contains bs
      else
        match prov.sign bucket b.name with
        | Except.error e => (Except.error e, 1)
        | Except.ok url =>
          let rest := dailyCollect prov bucket contains bs
          (rest.1.map fun items =>
            { name := name, path := b.name, size_bytes := b.size.getD 0,
              signed_url := url } :: items,
           rest.2 + 1)

/-- The accumulation loop of `list_by_prefix` (app.py lines 108-122): like the
daily loop, but each item also records `updated` as the isoformat timestamp. -/
def prefixCollect (prov : Provider) (bucket contains : String) :
    List Blob → Except String (List Item) × Nat
  | [] => (Except.ok [], 0)
  | b :: bs =>
    if endsWithSlash b.name then prefixCollect prov bucket contains bs
    else
      let name := lastSeg b.name
      if contains ≠ "" ∧ ¬ strContains name contains then prefixCollect prov bucket contains bs
      else
        match prov.sign bucket b.name with
        | Except.error e => (Except.error e, 1)
        | Except.ok url =>
          let rest := prefixCollect prov bucket contains bs
          (rest.1.map fun items =>
            { name := name, path := b.name, size_bytes := b.size.getD 0,
              signed_url := url, updated := b.updated.map DateTime.isoformat } :: items,
           rest.2 + 1)

/-- The date string `list_daily` uses: `request.args.get("date") or utcnow` (a present
but empty parameter is falsy and also yields today). -/
def dailyDate (args : Args) (today : String) : String :=
  match args.date with
  | some d => if d = "" then today else d
  | none => today

/-- The folder key `list_daily` lists: normalized prefix ++ date ++ "/". -/
def dailyFolder (args : Args) (today : String) : String :=
  let p0 := args.pfx.getD "daily/"
  let p := if p0 ≠ "" ∧ endsWithSlash p0 = false then p0 ++ "/" else p0
  p ++ dailyDate args today ++ "/"

/-- Handler of `GET /list_daily` (app.py lines 49-79). -/
def list_daily (cfg : Config) (prov : Provider) (args : Args) (today : String) :
    Except String Resp × Nat :=
  if cfg.bucket = "" then
    (Except.ok { status := 500, error := some "GCS_BUCKET not configured" }, 0)
  else
    let contains := pyStrip (args.contains.getD "")
    match pyInt (args.limit.getD "100") with
    | none => (Except.error valueErrorMsg, 0)
    | some limit =>
      match prov.listBlobs cfg.bucket (dailyFolder args today) with
      | Except.error e => (Except.error e, 1)
      | Except.ok blobs =>
        match dailyCollect prov cfg.bucket contains blobs with
        | (Except.error e, n) => (Except.error e, n + 1)
        | (Except.ok files, n) =>
          let sorted := files.insertionSort nameLe
          (Except.ok { status := 200, mode := some "daily", date := some (dailyDate args today),
                       count := sorted.length, files := pySliceTo sorted limit }, n + 1)

/-- Truth of the latest flag: `request.args.get("latest", "").strip() in ("1", "true", "yes")`. -/
def latestFlag (args : Args) : Bool :=
  ["1", "true", "yes"].contains (pyStrip (args.latest.getD ""))

/-- The latest-only collapse (app.py lines 127-128): `if latest_only and files: files = [files[0]]`. -/
def collapseLatest (latest_only : Bool) (l : List Item) : List Item :=
  if latest_only then
    match l with
    | [] => []
    | x :: _ => [x]
  else l

/-- Handler of `GET /list_by_prefix` (app.py lines 82-135). -/
def list_by_prefix (cfg : Config) (prov : Provider) (args : Args) :
    Except String Resp × Nat :=
  if cfg.bucket = "" then
    (Except.ok { status := 500, error := some "GCS_BUCKET not configured" }, 0)
  else
    let p := args.pfx.getD "csv/"
    let contains := pyStrip (args.contains.getD "")
    match pyInt (args.limit.getD "100") with
    | none => (Except.error valueErrorMsg, 0)
    | some limit =>
      let latest_only := latestFlag args
      match prov.listBlobs cfg.bucket p with
      | Except.error e => (Except.error e, 1)
      | Except.ok blobs =>
        match prefixCollect prov cfg.bucket contains blobs with
        | (Except.error e, n) => (Except.error e, n + 1)
        | (Except.ok files, n) =>
          let sorted := files.insertionSort updGe
          let files2 := collapseLatest latest_only sorted
          (Except.ok { status := 200, mode := some "prefix", pfx := some p,
                       count := files2.length, files := pySliceTo files2 limit }, n + 1)

/-! ### Concrete test fixtures used by witnesses and counterexamples -/

/-- Three demo objects under `csv/`: two files with distinct update times and a
directory marker. -/
def demoBlobs : List Blob :=
  [⟨"csv/2025-08-09_00.csv", some 5, some ⟨2025, 8, 9, 0, 0, 0⟩⟩,
   ⟨"csv/2025-08-09_08.csv", some 6, some ⟨2025, 8, 9, 8, 0, 0⟩⟩,
   ⟨"csv/dir/", none, none⟩]

/-- A healthy provider serving `demoBlobs` and signing every URL. -/
def provA : Provider :=
  ⟨fun _ _ => Except.ok demoBlobs, fun _ n => Except.ok ("https://signed/" ++ n)⟩

/-- A provider whose list call always fails. -/
def provBoom : Provider :=
  ⟨fun _ _ => Except.error "boom", fun _ _ => Except.error "boom"⟩

/-- A single ordinary blob without an update time. -/
def blobA : Blob := ⟨"csv/a.csv", none, none⟩

/-- A provider that lists one blob but fails every sign call. -/
def provSignBoom : Provider :=
  ⟨fun _ _ => Except.ok [blobA], fun _ _ => Except.error "boom"⟩

/-- A provider with an empty bucket. -/
def provEmpty : Provider :=
  ⟨fun _ _ => Except.ok [], fun _ n => Except.ok n⟩

/-- Query parameters selecting the demo date folder. -/
def argsDaily : Args := { date := some "2025-08-09", pfx := some "csv" }

/-- Same as `argsDaily` with an explicit limit of 1. -/
def argsDaily1 : Args := { date := some "2025-08-09", pfx := some "csv", limit := some "1" }

/-- The `list_daily` item built from the first demo blob. -/
def itemD00 : Item :=
  { name := "2025-08-09_00.csv", path := "csv/2025-08-09_00.csv", size_bytes := 5,
    signed_url := "https://signed/csv/2025-08-09_00.csv" }

/-- The `list_daily` item built from the second demo blob. -/
def itemD08 : Item :=
  { name := "2025-08-09_08.csv", path := "csv/2025-08-09_08.csv", size_bytes := 6,
    signed_url := "https://signed/csv/2025-08-09_08.csv" }

/-- The `list_by_prefix` item built from the first demo blob. -/
def itemP00 : Item :=
  { name := "2025-08-09_00.csv", path := "csv/2025-08-09_00.csv", size_bytes := 5,
    signed_url := "https://signed/csv/2025-08-09_00.csv",
    updated := some "2025-08-09T00:00:00" }

/-- The `list_by_prefix` item built from the second demo blob. -/
def itemP08 : Item :=
  { name := "2025-08-09_08.csv", path := "csv/2025-08-09_08.csv", size_bytes := 6,
    signed_url := "https://signed/csv/2025-08-09_08.csv",
    updated := some "2025-08-09T08:00:00" }

/-- Items of the demo blobs in provider order, before the descending sort. -/
def prefixFilesDemo : List Item := [itemP00, itemP08]

/-- Response of `list_daily` on `argsDaily` against `provA`. -/
def respDailyDemo : Resp :=
  { status := 200, mode := some "daily", date := some "2025-08-09", count := 2,
    files := [itemD00, itemD08] }

/-- Response of `list_daily` on `argsDaily1` (limit 1) against `provA`. -/
def respDaily1 : Resp :=
  { status := 200, mode := some "daily", date := some "2025-08-09", count := 2,
    files := [itemD00] }

/-- Response of `list_by_prefix` on empty args against `provA`. -/
def respPrefixDemo : Resp :=
  { status := 200, mode := some "prefix", pfx := some "csv/", count := 2,
    files := [itemP08, itemP00] }

/-- Response of `list_by_prefix` with `latest=1` against `provA`. -/
def respLatestDemo : Resp :=
  { status := 200, mode := some "prefix", pfx := some "csv/", count := 1,
    files := [itemP08] }

/-! ### Order theory for the two sort comparators -/

theorem chLt_cons_iff {x y : Char} {xs ys : List Char} :
    chLt (x :: xs) (y :: ys) = true ↔
      x.toNat < y.toNat ∨ (x.toNat = y.toNat ∧ chLt xs ys = true) := by
  simp only [chLt]
  split_ifs with h1 h2
  · simp [h1]
  · constructor
    · intro h
      exact absurd h (by simp)
    · rintro (h | ⟨h, _⟩) <;> omega
  · constructor
    · intro h
      exact Or.inr ⟨by omega, h⟩
    · rintro (h | ⟨_, h⟩)
      · omega
      · exact h

theorem chLt_irrefl : ∀ l : List Char, chLt l l = false
  | [] => rfl
  | a :: as => by simp [chLt, chLt_irrefl as]

theorem chLt_trans : ∀ {a b c : List Char},
    chLt a b = true → chLt b c = true → chLt a c = true := by
  intro a
  induction a with
  | nil =>
    intro b c hab hbc
    cases b with
    | nil => exact absurd hab (by simp [chLt])
    | cons y ys =>
      cases c with
      | nil => exact absurd hbc (by simp [chLt])
      | cons z zs => rfl
  | cons x xs ih =>
    intro b c hab hbc
    cases b with
    | nil => exact absurd hab (by simp [chLt])
    | cons y ys =>
      cases c with
      | nil => exact absurd hbc (by simp [chLt])
      | cons z zs =>
        rw [chLt_cons_iff] at hab hbc ⊢
        rcases hab with h1 | ⟨h1, h1r⟩ <;> rcases hbc with h2 | ⟨h2, h2r⟩
        · exact Or.inl (by omega)
        · exact Or.inl (by omega)
        · exact Or.inl (by omega)
        · exact Or.inr ⟨by omega, ih h1r h2r⟩

theorem chLt_conn : ∀ {a b : List Char}, a ≠ b → chLt a b = true ∨ chLt b a = true := by
  intro a
  induction a with
  | nil =>
    intro b hne
    cases b with
    | nil => exact absurd rfl hne
    | cons y ys => exact Or.inl rfl
  | cons x xs ih =>
    intro b hne
    cases b with
    | nil => exact Or.inr rfl
    | cons y ys =>
      rcases Nat.lt_trichotomy x.toNat y.toNat with h | h | h
      · exact Or.inl (chLt_cons_iff.mpr (Or.inl h))
      · have hxy : x = y := Char.eq_of_val_eq (UInt32.ext h)
        subst hxy
        have hne2 : xs ≠ ys := fun hh => hne (by rw [hh])
        rcases ih hne2 with h2 | h2
        · exact Or.inl (chLt_cons_iff.mpr (Or.inr ⟨rfl, h2⟩))
        · exact Or.inr (chLt_cons_iff.mpr (Or.inr ⟨rfl, h2⟩))
      · exact Or.inr (chLt_cons_iff.mpr (Or.inl h))

theorem strLt_trans {a b c : String} (h1 : strLt a b = true) (h2 : strLt b c = true) :
    strLt a c = true := chLt_trans h1 h2

theorem strLt_conn {a b : String} (h : a ≠ b) : strLt a b = true ∨ strLt b a = true :=
  chLt_conn (fun hd => h (String.ext hd))

theorem strLt_empty (s : String) : strLt s "" = false := by
  cases hs : s.data with
  | nil => simp [strLt, hs, chLt]
  | cons c cs => simp [strLt, hs, chLt]

theorem strLe_total (a b : String) : strLe a b = true ∨ strLe b a = true := by
  by_cases h : a = b
  · exact Or.inl (by simp [strLe, h])
  · rcases strLt_conn h with h2 | h2
    · exact Or.inl (by simp [strLe, h2])
    · exact Or.inr (by simp [strLe, h2])

theorem strLe_trans {a b c : String} (h1 : strLe a b = true) (h2 : strLe b c = true) :
    strLe a c = true := by
  simp only [strLe, Bool.or_eq_true, decide_eq_true_eq] at h1 h2 ⊢
  rcases h1 with h1 | h1 <;> rcases h2 with h2 | h2
  · exact Or.inl (strLt_trans h1 h2)
  · exact Or.inl (h2 ▸ h1)
  · exact Or.inl (h1 ▸ h2)
  · exact Or.inr (h1.trans h2)

theorem tupLeB_total (p q : String × String) : tupLeB p q = true ∨ tupLeB q p = true := by
  by_cases h : p = q
  · exact Or.inl (by simp [tupLeB, h])
  · by_cases h1 : p.1 = q.1
    · have h2 : p.2 ≠ q.2 := by
        intro hh
        exact h (Prod.ext h1 hh)
      rcases strLt_conn h2 with h3 | h3
      · exact Or.inl (by simp [tupLeB, tupLtB, h1, h3])
      · exact Or.inr (by simp [tupLeB, tupLtB, h1.symm, h3])
    · rcases strLt_conn h1 with h3 | h3
      · exact Or.inl (by simp [tupLeB, tupLtB, h3])
      · exact Or.inr (by simp [tupLeB, tupLtB, h3])

theorem tupLeB_trans {p q r : String × String} (h1 : tupLeB p q = true)
    (h2 : tupLeB q r = true) : tupLeB p r = true := by
  simp only [tupLeB, tupLtB, Bool.or_eq_true, Bool.and_eq_true, decide_eq_true_eq] at h1 h2 ⊢
  rcases h1 with (h1 | ⟨h1e, h1s⟩) | h1 <;> rcases h2 with (h2 | ⟨h2e, h2s⟩) | h2
  · exact Or.inl (Or.inl (strLt_trans h1 h2))
  · exact Or.inl (Or.inl (h2e ▸ h1))
  · exact Or.inl (Or.inl (h2 ▸ h1))
  · exact Or.inl (Or.inl (h1e ▸ h2))
  · exact Or.inl (Or.inr ⟨h1e.trans h2e, strLt_trans h1s h2s⟩)
  · exact Or.inl (Or.inr ⟨h2 ▸ h1e, h2 ▸ h1s⟩)
  · exact Or.inl (Or.inl (h1 ▸ h2))
  · exact Or.inl (Or.inr ⟨h1 ▸ h2e, h1 ▸ h2s⟩)
  · exact Or.inr (h1.trans h2)

theorem tupLeB_refl (p : String × String) : tupLeB p p = true := by
  simp [tupLeB]

theorem tupLeB_fst_empty {p : String × String} {n : String}
    (h : tupLeB p ("", n) = true) : p.1 = "" := by
  simp only [tupLeB, tupLtB, Bool.or_eq_true, Bool.and_eq_true, decide_eq_true_eq] at h
  rcases h with (h | ⟨h, -⟩) | h
  · rw [strLt_empty] at h
    exact absurd h (by simp)
  · exact h
  · rw [h]

instance : IsTotal Item updGe := ⟨fun a b => tupLeB_total (keyB b) (keyB a)⟩

instance : IsTrans Item updGe := ⟨fun _ _ _ hab hbc => tupLeB_trans hbc hab⟩

instance : IsTotal Item nameLe := ⟨fun a b => strLe_total a.name b.name⟩

instance : IsTrans Item nameLe := ⟨fun _ _ _ hab hbc => strLe_trans hab hbc⟩

/-! ### Support lemmas -/

theorem isoformat_ne_empty (d : DateTime) : DateTime.isoformat d ≠ "" := by
  intro h
  have h2 := congrArg String.length h
  rw [show String.length "" = 0 from rfl] at h2
  simp only [DateTime.isoformat, String.length_append,
    show String.length "-" = 1 from rfl, show String.length "T" = 1 from rfl,
    show String.length ":" = 1 from rfl] at h2
  omega

theorem pySliceTo_sublist {α : Type} (l : List α) (k : Int) : (pySliceTo l k).Sublist l := by
  unfold pySliceTo
  split_ifs <;> exact List.take_sublist _ _

theorem pySliceTo_subset {α : Type} {l : List α} {k : Int} {x : α}
    (h : x ∈ pySliceTo l k) : x ∈ l := (pySliceTo_sublist l k).subset h

theorem pairwise_pySliceTo {α : Type} {R : α → α → Prop} {l : List α} {k : Int}
    (h : l.Pairwise R) : (pySliceTo l k).Pairwise R := h.sublist (pySliceTo_sublist l k)

theorem length_pySliceTo_of_nonneg {α : Type} (l : List α) {k : Int} (hk : 0 ≤ k) :
    (pySliceTo l k).length = min k.toNat l.length := by
  simp [pySliceTo, hk, List.length_take]

theorem length_pySliceTo_le {α : Type} (l : List α) (k : Int) :
    (pySliceTo l k).length ≤ l.length := (pySliceTo_sublist l k).length_le

theorem collapseLatest_pairwise {R : Item → Item → Prop} {l : List Item} {b : Bool}
    (h : l.Pairwise R) : (collapseLatest b l).Pairwise R := by
  cases b with
  | false => exact h
  | true =>
    cases l with
    | nil => exact List.Pairwise.nil
    | cons x t => simp [collapseLatest]

theorem collapseLatest_subset {l : List Item} {b : Bool} {x : Item}
    (h : x ∈ collapseLatest b l) : x ∈ l := by
  cases b with
  | false => exact h
  | true =>
    cases l with
    | nil => exact h
    | cons y t =>
      simp only [collapseLatest, if_pos] at h
      rcases List.mem_singleton.mp h with rfl
      exact List.mem_cons_self _ _

theorem dailyCollect_mem (prov : Provider) (bucket contains : String) :
    ∀ (blobs : List Blob) (items : List Item) (ns : Nat),
      dailyCollect prov bucket contains blobs = (Except.ok items, ns) →
      ∀ x ∈ items, ∃ b ∈ blobs, x.name = lastSeg b.name ∧ x.path = b.name ∧
        endsWithSlash b.name = false ∧ x.updated = none := by
  intro blobs
  induction blobs with
  | nil =>
    intro items ns h x hx
    simp only [dailyCollect, Prod.mk.injEq] at h
    obtain ⟨h1, -⟩ := h
    injection h1 with h1
    subst h1
    exact absurd hx (by simp)
  | cons b bs ih =>
    intro items ns h x hx
    simp only [dailyCollect] at h
    by_cases hslash : endsWithSlash b.name = true
    · rw [if_pos hslash] at h
      obtain ⟨b2, hb2, hrest⟩ := ih items ns h x hx
      exact ⟨b2, List.mem_cons_of_mem _ hb2, hrest⟩
    · rw [if_neg hslash] at h
      by_cases hfil : contains ≠ "" ∧ ¬ strContains (lastSeg b.name) contains = true
      · rw [if_pos hfil] at h
        obtain ⟨b2, hb2, hrest⟩ := ih items ns h x hx
        exact ⟨b2, List.mem_cons_of_mem _ hb2, hrest⟩
      · rw [if_neg hfil] at h
        rcases hsig : prov.sign bucket b.name with e | url <;> rw [hsig] at h
        · simp only [Prod.mk.injEq] at h
          exact absurd h.1 (by simp)
        · rcases hrest : dailyCollect prov bucket contains bs with ⟨res, m⟩
          rw [hrest] at h
          cases res with
          | error e =>
            simp only [Except.map, Prod.mk.injEq] at h
            exact absurd h.1 (by simp)
          | ok items0 =>
            simp only [Except.map, Prod.mk.injEq] at h
            obtain ⟨h1, -⟩ := h
            injection h1 with h1
            subst h1
            rcases List.mem_cons.mp hx with rfl | hx2
            · exact ⟨b, List.mem_cons_self _ _, rfl, rfl,
                Bool.not_eq_true _ ▸ hslash, rfl⟩
            · obtain ⟨b2, hb2, hr⟩ := ih items0 m (by rw [hrest]) x hx2
              exact ⟨b2, List.mem_cons_of_mem _ hb2, hr⟩

theorem prefixCollect_mem (prov : Provider) (bucket contains : String) :
    ∀ (blobs : List Blob) (items : List Item) (ns : Nat),
      prefixCollect prov bucket contains blobs = (Except.ok items, ns) →
      ∀ x ∈ items, ∃ b ∈ blobs, x.name = lastSeg b.name ∧ x.path = b.name ∧
        endsWithSlash b.name = false ∧ x.updated = b.updated.map DateTime.isoformat := by
  intro blobs
  induction blobs with
  | nil =>
    intro items ns h x hx
    simp only [prefixCollect, Prod.mk.injEq] at h
    obtain ⟨h1, -⟩ := h
    injection h1 with h1
    subst h1
    exact absurd hx (by simp)
  | cons b bs ih =>
    intro items ns h x hx
    simp only [prefixCollect] at h
    by_cases hslash : endsWithSlash b.name = true
    · rw [if_pos hslash] at h
      obtain ⟨b2, hb2, hrest⟩ := ih items ns h x hx
      exact ⟨b2, List.mem_cons_of_mem _ hb2, hrest⟩
    · rw [if_neg hslash] at h
      by_cases hfil : contains ≠ "" ∧ ¬ strContains (lastSeg b.name) contains = true
      · rw [if_pos hfil] at h
        obtain ⟨b2, hb2, hrest⟩ := ih items ns h x hx
        exact ⟨b2, List.mem_cons_of_mem _ hb2, hrest⟩
      · rw [if_neg hfil] at h
        rcases hsig : prov.sign bucket b.name with e | url <;> rw [hsig] at h
        · simp only [Prod.mk.injEq] at h
          exact absurd h.1 (by simp)
        · rcases hrest : prefixCollect prov bucket contains bs with ⟨res, m⟩
          rw [hrest] at h
          cases res with
          | error e =>
            simp only [Except.map, Prod.mk.injEq] at h
            exact absurd h.1 (by simp)
          | ok items0 =>
            simp only [Except.map, Prod.mk.injEq] at h
            obtain ⟨h1, -⟩ := h
            injection h1 with h1
            subst h1
            rcases List.mem_cons.mp hx with rfl | hx2
            · exact ⟨b, List.mem_cons_self _ _, rfl, rfl,
                Bool.not_eq_true _ ▸ hslash, rfl⟩
            · obtain ⟨b2, hb2, hr⟩ := ih items0 m (by rw [hrest]) x hx2
              exact ⟨b2, List.mem_cons_of_mem _ hb2, hr⟩

/-- Inversion for `list_daily`: a JSON response is either the configuration
error or the success response of the full pipeline. -/
theorem list_daily_cases (cfg : Config) (prov : Provider) (args : Args) (today : String)
    (r : Resp) (hr : (list_daily cfg prov args today).1 = Except.ok r) :
    (cfg.bucket = "" ∧ r = { status := 500, error := some "GCS_BUCKET not configured" }) ∨
    ∃ lim blobs files ns, cfg.bucket ≠ "" ∧
      pyInt (args.limit.getD "100") = some lim ∧
      prov.listBlobs cfg.bucket (dailyFolder args today) = Except.ok blobs ∧
      dailyCollect prov cfg.bucket (pyStrip (args.contains.getD "")) blobs
        = (Except.ok files, ns) ∧
      r = { status := 200, mode := some "daily", date := some (dailyDate args today),
            count := (files.insertionSort nameLe).length,
            files := pySliceTo (files.insertionSort nameLe) lim } := by
  by_cases hb : cfg.bucket = ""
  · left
    simp only [list_daily, if_pos hb] at hr
    injection hr with hr
    exact ⟨hb, hr.symm⟩
  · right
    cases hpi : pyInt (args.limit.getD "100") with
    | none =>
      simp [list_daily, if_neg hb, hpi] at hr
    | some lim =>
      cases hlist : prov.listBlobs cfg.bucket (dailyFolder args today) with
      | error e =>
        simp [list_daily, if_neg hb, hpi, hlist] at hr
      | ok blobs =>
        rcases hcol : dailyCollect prov cfg.bucket (pyStrip (args.contains.getD "")) blobs
          with ⟨res, ns⟩
        cases res with
        | error e =>
          simp [list_daily, if_neg hb, hpi, hlist, hcol] at hr
        | ok files =>
          simp only [list_daily, if_neg hb, hpi, hlist, hcol] at hr
          refine ⟨lim, blobs, files, ns, hb, rfl, rfl, hcol, ?_⟩
          injection hr with hr
          exact hr.symm

/-- Inversion for `list_by_prefix`: a JSON response is either the configuration
error or the success response of the full pipeline. -/
theorem list_by_prefix_cases (cfg : Config) (prov : Provider) (args : Args)
    (r : Resp) (hr : ( list_by_prefix cfg prov args).1 = Except.ok r) :
    (cfg.bucket = "" ∧ r = { status := 500, error := some "GCS_BUCKET not configured" }) ∨
    ∃ lim blobs files ns, cfg.bucket ≠ "" ∧
      pyInt (args.limit.getD "100") = some lim ∧
      prov.listBlobs cfg.bucket (args.pfx.getD "csv/") = Except.ok blobs ∧
      prefixCollect prov cfg.bucket (pyStrip (args.contains.getD "")) blobs
        = (Except.ok files, ns) ∧
      r = { status := 200, mode := some "prefix", pfx := some (args.pfx.getD "csv/"),
            count := (collapseLatest (latestFlag args) (files.insertionSort updGe)).length,
            files := pySliceTo (collapseLatest (latestFlag args) (files.insertionSort updGe))
                       lim } := by
  by_cases hb : cfg.bucket = ""
  · left
    simp only [ list_by_prefix, if_pos hb] at hr
    injection hr with hr
    exact ⟨hb, hr.symm⟩
  · right
    cases hpi : pyInt (args.limit.getD "100") with
    | none =>
      simp [ list_by_prefix, if_neg hb, hpi] at hr
    | some lim =>
      cases hlist : prov.listBlobs cfg.bucket (args.pfx.getD "csv/") with
      | error e =>
        simp [ list_by_prefix, if_neg hb, hpi, hlist] at hr
      | ok blobs =>
        rcases hcol : prefixCollect prov cfg.bucket (pyStrip (args.contains.getD "")) blobs
          with ⟨res, ns⟩
        cases res with
        | error e =>
          simp [ list_by_prefix, if_neg hb, hpi, hlist, hcol] at hr
        | ok files =>
          simp only [ list_by_prefix, if_neg hb, hpi, hlist, hcol] at hr
          refine ⟨lim, blobs, files, ns, hb, rfl, rfl, hcol, ?_⟩
          injection hr with hr
          exact hr.symm

/-! ### Claim theorems -/

/-- C1 counterexample: with the bucket configured and the provider list call
failing with message "boom", both handlers let the exception escape
(`Except.error "boom"`) instead of returning a structured HTTP 500 JSON
response — refuting the claim at this concrete input. -/
theorem provider_failure_uncaught_counterexample :
    (list_daily ⟨"b"⟩ provBoom {} "2025-01-01").1 = Except.error "boom" ∧
    ( list_by_prefix ⟨"b"⟩ provBoom {}).1 = Except.error "boom" := by decide

/-- C1 amended: neither handler catches provider failures.  When the
list-objects call fails (provider `p1`), or when the listing succeeds and the
per-object sign-URL call fails (provider `p2`), the failure propagates out of
`list_daily` and `list_by_prefix` as an unhandled fault carrying the provider's
error message; no structured 500 JSON response is produced. -/
theorem provider_failure_propagates (cfg : Config) (p1 p2 : Provider) (args : Args)
    (today e : String) (b0 : Blob) (lim : Int)
    (hb : cfg.bucket ≠ "")
    (hl : pyInt (args.limit.getD "100") = some lim)
    (h1 : ∀ bk pf, p1.listBlobs bk pf = Except.error e)
    (h2l : ∀ bk pf, p2.listBlobs bk pf = Except.ok [b0])
    (h2s : ∀ bk nm, p2.sign bk nm = Except.error e)
    (hb0 : endsWithSlash b0.name = false)
    (hc : args.contains = none) :
    (list_daily cfg p1 args today).1 = Except.error e ∧
    ( list_by_prefix cfg p1 args).1 = Except.error e ∧
    (list_daily cfg p2 args today).1 = Except.error e ∧
    ( list_by_prefix cfg p2 args).1 = Except.error e := by
  have hc2 : pyStrip (args.contains.getD "") = "" := by rw [hc]; rfl
  refine ⟨?_, ?_, ?_, ?_⟩
  · simp [list_daily, hb, hl, h1]
  · simp [ list_by_prefix, hb, hl, h1]
  · simp [list_daily, hb, hl, h2l, hc2, dailyCollect, hb0, h2s]
  · simp [ list_by_prefix, hb, hl, h2l, hc2, prefixCollect, hb0, h2s]

/-- C1 witness: the amended theorem applied to concrete providers that fail
the list call (`provBoom`) and the sign call (`provSignBoom`). -/
theorem provider_failure_propagates_witness :
    (list_daily ⟨"b"⟩ provBoom {} "t").1 = Except.error "boom" ∧
    ( list_by_prefix ⟨"b"⟩ provBoom {}).1 = Except.error "boom" ∧
    (list_daily ⟨"b"⟩ provSignBoom {} "t").1 = Except.error "boom" ∧
    ( list_by_prefix ⟨"b"⟩ provSignBoom {}).1 = Except.error "boom" :=
  provider_failure_propagates ⟨"b"⟩ provBoom provSignBoom {} "t" "boom" blobA 100
    (by decide) (by decide) (fun _ _ => rfl) (fun _ _ => rfl) (fun _ _ => rfl)
    (by decide) rfl

/-- C5 counterexample: a malformed limit string ("abc") is not accepted
silently with the default of 100: both handlers fail with the uncaught
ValueError from `int()` before any provider call (call count 0). -/
theorem malformed_limit_counterexample :
    list_daily ⟨"b"⟩ provA { limit := some "abc" } "2025-01-01"
      = (Except.error valueErrorMsg, 0) ∧
    list_by_prefix ⟨"b"⟩ provA { limit := some "abc" }
      = (Except.error valueErrorMsg, 0) := by decide

/-- C5 amended: when the limit query parameter does not parse as an integer,
`int()` raises and the uncaught ValueError fails the request in both handlers
before any provider call; the default of 100 applies only when the parameter
is absent (`int("100") = 100`). -/
theorem malformed_limit_raises (cfg : Config) (prov : Provider) (args : Args)
    (today : String) (hb : cfg.bucket ≠ "")
    (hm : pyInt (args.limit.getD "100") = none) :
    list_daily cfg prov args today = (Except.error valueErrorMsg, 0) ∧
    list_by_prefix cfg prov args = (Except.error valueErrorMsg, 0) ∧
    pyInt "100" = some 100 := by
  refine ⟨?_, ?_, by decide⟩ <;> simp [list_daily, list_by_prefix, hb, hm]

/-- C5 witness: the amended theorem applied to the malformed limit "abc". -/
theorem malformed_limit_raises_witness :
    list_daily ⟨"b"⟩ provA { limit := some "abc" } "t" = (Except.error valueErrorMsg, 0) ∧
    list_by_prefix ⟨"b"⟩ provA { limit := some "abc" } = (Except.error valueErrorMsg, 0) ∧
    pyInt "100" = some 100 :=
  malformed_limit_raises ⟨"b"⟩ provA { limit := some "abc" } "t" (by decide) (by decide)

/-- C6 counterexample: no GET route `/list` is registered on the app. -/
theorem no_list_route_counterexample : ("GET", "/list") ∉ routes := by decide

/-- C6 amended: the HTTP surface consists of GET `/health`, `/`, `/list_daily`
and `/list_by_prefix`; there is no `/list` route. -/
theorem registered_routes :
    ("GET", "/health") ∈ routes ∧ ("GET", "/") ∈ routes ∧
    ("GET", "/list_daily") ∈ routes ∧ ("GET", "/list_by_prefix") ∈ routes ∧
    ("GET", "/list") ∉ routes := by decide

/-- C7: with an empty bucket name, both listing handlers return the structured
HTTP 500 response with the non-empty error message "GCS_BUCKET not configured",
and the provider call count is 0 (no list or sign call is performed), for every
provider and every request. -/
theorem empty_bucket_500_no_provider_call (cfg : Config) (prov : Provider)
    (args : Args) (today : String) (hb : cfg.bucket = "") :
    list_daily cfg prov args today =
      (Except.ok { status := 500, error := some "GCS_BUCKET not configured" }, 0) ∧
    list_by_prefix cfg prov args =
      (Except.ok { status := 500, error := some "GCS_BUCKET not configured" }, 0) ∧
    "GCS_BUCKET not configured" ≠ "" := by
  refine ⟨?_, ?_, by decide⟩ <;> simp [list_daily, list_by_prefix, hb]

/-- C7 witness: the theorem applied to the empty bucket configuration. -/
theorem empty_bucket_500_no_provider_call_witness :
    list_daily ⟨""⟩ provA {} "2025-01-01" =
      (Except.ok { status := 500, error := some "GCS_BUCKET not configured" }, 0) ∧
    list_by_prefix ⟨""⟩ provA {} =
      (Except.ok { status := 500, error := some "GCS_BUCKET not configured" }, 0) ∧
    "GCS_BUCKET not configured" ≠ "" :=
  empty_bucket_500_no_provider_call ⟨""⟩ provA {} "2025-01-01" rfl

/-- C2: every JSON response of `list_by_prefix` has its files array sorted in
descending (non-increasing) order of the Python tuple
`(updatedAt or "", name)` — so name is the tiebreak at equal update times —
and every item lacking an updatedAt timestamp comes after all items that
have one. -/
theorem by_prefix_sorted_descending (cfg : Config) (prov : Provider) (args : Args)
    (r : Resp) (hr : ( list_by_prefix cfg prov args).1 = Except.ok r) :
    r.files.Pairwise updGe ∧
    r.files.Pairwise (fun a b => a.updated = none → b.updated = none) := by
  rcases list_by_prefix_cases cfg prov args r hr with ⟨-, h500⟩ |
    ⟨lim, blobs, files, ns, -, -, -, hcol, hsucc⟩
  · subst h500
    exact ⟨List.Pairwise.nil, List.Pairwise.nil⟩
  · subst hsucc
    have hsort : (files.insertionSort updGe).Pairwise updGe :=
      List.sorted_insertionSort updGe files
    have hp1 : (pySliceTo (collapseLatest (latestFlag args)
        (files.insertionSort updGe)) lim).Pairwise updGe :=
      pairwise_pySliceTo (collapseLatest_pairwise hsort)
    refine ⟨hp1, ?_⟩
    have hgood : ∀ x ∈ pySliceTo (collapseLatest (latestFlag args)
        (files.insertionSort updGe)) lim,
        x.updated = none ∨ ∃ d, x.updated = some (DateTime.isoformat d) := by
      intro x hx
      have hx2 : x ∈ files :=
        (List.mem_insertionSort updGe).mp (collapseLatest_subset (pySliceTo_subset hx))
      obtain ⟨b, -, -, -, -, hupd⟩ :=
        prefixCollect_mem prov cfg.bucket _ blobs files ns hcol x hx2
      cases hb2 : b.updated with
      | none =>
        left
        rw [hupd, hb2]
        rfl
      | some d =>
        right
        exact ⟨d, by rw [hupd, hb2]; rfl⟩
    refine List.Pairwise.imp_of_mem ?_ hp1
    intro a b ha hbm hab hanone
    have hkeya : keyB a = ("", a.name) := by simp [keyB, hanone]
    unfold updGe at hab
    rw [hkeya] at hab
    have h1 : (keyB b).1 = "" := tupLeB_fst_empty hab
    rcases hgood b hbm with hb0 | ⟨d, hd⟩
    · exact hb0
    · exfalso
      have h2 : DateTime.isoformat d = "" := by simpa [keyB, hd] using h1
      exact isoformat_ne_empty d h2

/-- C2 witness: the sortedness theorem applied to the demo provider. -/
theorem by_prefix_sorted_descending_witness :
    respPrefixDemo.files.Pairwise updGe ∧
    respPrefixDemo.files.Pairwise (fun a b => a.updated = none → b.updated = none) :=
  by_prefix_sorted_descending ⟨"b"⟩ provA {} respPrefixDemo (by decide)

/-- C8: in every JSON response of either handler, each item's name is the last
slash-delimited segment of its path, and no item's path ends with a slash
(directory markers are excluded). -/
theorem name_last_segment_no_markers (cfg : Config) (prov : Provider) (args : Args)
    (today : String) :
    (∀ r, (list_daily cfg prov args today).1 = Except.ok r →
      ∀ x ∈ r.files, x.name = lastSeg x.path ∧ endsWithSlash x.path = false) ∧
    (∀ r, ( list_by_prefix cfg prov args).1 = Except.ok r →
      ∀ x ∈ r.files, x.name = lastSeg x.path ∧ endsWithSlash x.path = false) := by
  constructor
  · intro r hr x hx
    rcases list_daily_cases cfg prov args today r hr with ⟨-, h500⟩ |
      ⟨lim, blobs, files, ns, -, -, -, hcol, hsucc⟩
    · subst h500
      exact absurd hx (by simp)
    · subst hsucc
      have hx2 : x ∈ files :=
        (List.mem_insertionSort nameLe).mp (pySliceTo_subset hx)
      obtain ⟨b, -, hname, hpath, hslash, -⟩ :=
        dailyCollect_mem prov cfg.bucket _ blobs files ns hcol x hx2
      rw [hpath]
      exact ⟨hname, hslash⟩
  · intro r hr x hx
    rcases list_by_prefix_cases cfg prov args r hr with ⟨-, h500⟩ |
      ⟨lim, blobs, files, ns, -, -, -, hcol, hsucc⟩
    · subst h500
      exact absurd hx (by simp)
    · subst hsucc
      have hx2 : x ∈ files :=
        (List.mem_insertionSort updGe).mp (collapseLatest_subset (pySliceTo_subset hx))
      obtain ⟨b, -, hname, hpath, hslash, -⟩ :=
        prefixCollect_mem prov cfg.bucket _ blobs files ns hcol x hx2
      rw [hpath]
      exact ⟨hname, hslash⟩

/-- C8 witness: the invariant applied to a concrete item of a concrete daily
response. -/
theorem name_last_segment_no_markers_witness :
    itemD00.name = lastSeg itemD00.path ∧ endsWithSlash itemD00.path = false :=
  (name_last_segment_no_markers ⟨"b"⟩ provA argsDaily "t").1 respDailyDemo
    (by decide) itemD00 (by decide)

/-- C9: every JSON response of `list_daily` has its files array sorted in
non-decreasing order of name. -/
theorem daily_sorted_by_name (cfg : Config) (prov : Provider) (args : Args)
    (today : String) (r : Resp)
    (hr : (list_daily cfg prov args today).1 = Except.ok r) :
    r.files.Pairwise nameLe := by
  rcases list_daily_cases cfg prov args today r hr with ⟨-, h500⟩ |
    ⟨lim, blobs, files, ns, -, -, -, -, hsucc⟩
  · subst h500
    exact List.Pairwise.nil
  · subst hsucc
    exact pairwise_pySliceTo (List.sorted_insertionSort nameLe files)

/-- C9 witness: the sortedness theorem applied to the demo daily response. -/
theorem daily_sorted_by_name_witness : respDailyDemo.files.Pairwise nameLe :=
  daily_sorted_by_name ⟨"b"⟩ provA argsDaily "t" respDailyDemo (by decide)

/-- C3 counterexample: with `latest=1` and `limit=0` against two matching
objects, the collapsed list is non-empty (count 1) yet the response carries no
file at all — so the response does not contain the newest file, refuting the
claim at this concrete input. -/
theorem latest_limit_zero_counterexample :
    ( list_by_prefix ⟨"b"⟩ provA { limit := some "0", latest := some "1" }).1 =
      Except.ok { status := 200, mode := some "prefix", pfx := some "csv/",
                  count := 1, files := [] } := by decide

/-- C3 amended: with the latest flag set, the response of `list_by_prefix`
contains at most one file; when the filtered list is non-empty and the parsed
limit is at least 1, exactly one file is returned and it is maximal under the
descending `(updatedAt, name)` ordering among all matching items (for
`limit=0` or negative limits the singleton is truncated away). -/
theorem latest_returns_newest (cfg : Config) (prov : Provider) (args : Args)
    (lim : Int) (blobs : List Blob) (files : List Item) (ns : Nat)
    (hb : cfg.bucket ≠ "")
    (hl : pyInt (args.limit.getD "100") = some lim)
    (hlat : latestFlag args = true)
    (hlist : prov.listBlobs cfg.bucket (args.pfx.getD "csv/") = Except.ok blobs)
    (hcol : prefixCollect prov cfg.bucket (pyStrip (args.contains.getD "")) blobs
      = (Except.ok files, ns)) :
    ∀ r, ( list_by_prefix cfg prov args).1 = Except.ok r →
      r.files.length ≤ 1 ∧
      (files ≠ [] → 1 ≤ lim →
        ∃ m, r.files = [m] ∧ m ∈ files ∧ ∀ x ∈ files, updGe m x) := by
  intro r hr
  rcases list_by_prefix_cases cfg prov args r hr with ⟨hbe, -⟩ |
    ⟨lim2, blobs2, files2, ns2, -, hpi2, hlist2, hcol2, hsucc⟩
  · exact absurd hbe hb
  · rw [hl] at hpi2
    obtain rfl : lim = lim2 := Option.some.inj hpi2
    rw [hlist] at hlist2
    obtain rfl : blobs = blobs2 := Except.ok.inj hlist2
    rw [hcol] at hcol2
    injection hcol2 with hcol2 hns2
    obtain rfl : files = files2 := Except.ok.inj hcol2
    subst hsucc
    constructor
    · show (pySliceTo (collapseLatest (latestFlag args)
        (files.insertionSort updGe)) lim).length ≤ 1
      have h1 : (collapseLatest (latestFlag args) (files.insertionSort updGe)).length ≤ 1 := by
        rw [hlat]
        cases files.insertionSort updGe <;> simp [collapseLatest]
      exact le_trans (length_pySliceTo_le _ _) h1
    · intro hne hlim1
      have hsor : files.insertionSort updGe ≠ [] := by
        intro h0
        apply hne
        have h2 := congrArg List.length h0
        rw [List.length_insertionSort] at h2
        exact List.length_eq_zero.mp h2
      obtain ⟨m, t, hs⟩ : ∃ m t, files.insertionSort updGe = m :: t := by
        cases hs2 : files.insertionSort updGe with
        | nil => exact absurd hs2 hsor
        | cons m t => exact ⟨m, t, rfl⟩
      have hcol3 : collapseLatest (latestFlag args) (files.insertionSort updGe) = [m] := by
        rw [hlat, hs]
        rfl
      have hslice : pySliceTo [m] lim = [m] := by
        unfold pySliceTo
        rw [if_pos (le_trans (by norm_num) hlim1)]
        apply List.take_of_length_le
        have h3 : ([m] : List Item).length = 1 := rfl
        omega
      refine ⟨m, ?_, ?_, ?_⟩
      · show pySliceTo (collapseLatest (latestFlag args)
          (files.insertionSort updGe)) lim = [m]
        rw [hcol3, hslice]
      · have hm : m ∈ files.insertionSort updGe := by
          rw [hs]
          exact List.mem_cons_self _ _
        exact (List.mem_insertionSort updGe).mp hm
      · intro x hx
        have hxs : x ∈ files.insertionSort updGe := (List.mem_insertionSort updGe).mpr hx
        rw [hs] at hxs
        rcases List.mem_cons.mp hxs with rfl | hxt
        · exact tupLeB_refl _
        · have hsorted : (files.insertionSort updGe).Pairwise updGe :=
            List.sorted_insertionSort updGe files
          rw [hs] at hsorted
          exact List.rel_of_sorted_cons hsorted x hxt

/-- C3 witness: the amended theorem applied to the demo provider with the
latest flag set and the default limit of 100. -/
theorem latest_returns_newest_witness :
    respLatestDemo.files.length ≤ 1 ∧
    (prefixFilesDemo ≠ [] → 1 ≤ (100 : Int) →
      ∃ m, respLatestDemo.files = [m] ∧ m ∈ prefixFilesDemo ∧
        ∀ x ∈ prefixFilesDemo, updGe m x) :=
  latest_returns_newest ⟨"b"⟩ provA { latest := some "1" } 100 demoBlobs
    prefixFilesDemo 2 (by decide) (by decide) (by decide) rfl (by decide)
    respLatestDemo (by decide)

/-- C4 counterexample: `list_daily` does apply the limit parameter — with two
matching objects and `limit=1` the response reports count 2 but returns only
one file, so the files array does not contain every surviving object. -/
theorem daily_limit_applied_counterexample :
    (list_daily ⟨"b"⟩ provA argsDaily1 "t").1 =
      Except.ok { status := 200, mode := some "daily", date := some "2025-08-09",
                  count := 2, files := [itemD00] } := by decide

/-- C4 amended: `list_daily` indeed applies no latest-only semantics (its
result is invariant under the latest query parameter), but it does truncate
the sorted files array to the limit query parameter: for a non-negative parsed
limit, at most `limit` files are returned. -/
theorem daily_ignores_latest_but_truncates (cfg : Config) (prov : Provider)
    (args : Args) (today : String) (v : Option String) (lim : Int)
    (hl : pyInt (args.limit.getD "100") = some lim) (hnn : 0 ≤ lim) :
    list_daily cfg prov { args with latest := v } today = list_daily cfg prov args today ∧
    ∀ r, (list_daily cfg prov args today).1 = Except.ok r → r.error = none →
      r.files.length ≤ lim.toNat := by
  constructor
  · rfl
  · intro r hr herr
    rcases list_daily_cases cfg prov args today r hr with ⟨-, h500⟩ |
      ⟨lim2, blobs, files, ns, -, hpi2, -, -, hsucc⟩
    · subst h500
      simp at herr
    · rw [hl] at hpi2
      obtain rfl : lim = lim2 := Option.some.inj hpi2
      subst hsucc
      show (pySliceTo (files.insertionSort nameLe) lim).length ≤ lim.toNat
      rw [length_pySliceTo_of_nonneg _ hnn]
      exact Nat.min_le_left _ _

/-- C4 witness: the amended theorem applied to the demo provider with
`limit=1` (two matching objects, one returned). -/
theorem daily_ignores_latest_but_truncates_witness :
    list_daily ⟨"b"⟩ provA { argsDaily1 with latest := some "1" } "t" =
      list_daily ⟨"b"⟩ provA argsDaily1 "t" ∧
    respDaily1.files.length ≤ (1 : Int).toNat :=
  ⟨(daily_ignores_latest_but_truncates ⟨"b"⟩ provA argsDaily1 "t" (some "1") 1
      (by decide) (by decide)).1,
   (daily_ignores_latest_but_truncates ⟨"b"⟩ provA argsDaily1 "t" (some "1") 1
      (by decide) (by decide)).2 respDaily1 (by decide) rfl⟩

/-- C10 counterexample: with `limit=-1` (parsed by `int()`) and an empty
filtered list, the pre-truncation number (0) exceeds the limit (-1), yet the
count (0) is not strictly greater than the length of the returned files array
(0) — refuting the claim's strict inequality at this concrete input. -/
theorem count_negative_limit_counterexample :
    (list_daily ⟨"b"⟩ provEmpty { limit := some "-1" } "2025-01-01").1 =
      Except.ok { status := 200, mode := some "daily", date := some "2025-01-01",
                  count := 0, files := [] } ∧
    ((0 : Int) > -1) ∧ ¬ ((0 : Nat) > 0) := by decide

/-- C10 amended: in both handlers the count field equals the number of items
remaining after the filters (and, for `list_by_prefix`, the latest-only
collapse) but before limit truncation: for a non-negative parsed limit the
returned files array has length `min count limit`, and whenever the
pre-truncation count exceeds the limit, the count is strictly greater than the
number of files returned. -/
theorem count_is_pre_truncation (cfg : Config) (prov : Provider) (args : Args)
    (today : String) (lim : Int)
    (hl : pyInt (args.limit.getD "100") = some lim) (hnn : 0 ≤ lim) :
    (∀ r, (list_daily cfg prov args today).1 = Except.ok r → r.error = none →
      r.files.length = min r.count lim.toNat ∧
        (lim.toNat < r.count → r.files.length < r.count)) ∧
    (∀ r, ( list_by_prefix cfg prov args).1 = Except.ok r → r.error = none →
      r.files.length = min r.count lim.toNat ∧
        (lim.toNat < r.count → r.files.length < r.count)) := by
  constructor
  · intro r hr herr
    rcases list_daily_cases cfg prov args today r hr with ⟨-, h500⟩ |
      ⟨lim2, blobs, files, ns, -, hpi2, -, -, hsucc⟩
    · subst h500
      simp at herr
    · rw [hl] at hpi2
      obtain rfl : lim = lim2 := Option.some.inj hpi2
      subst hsucc
      have hmin : (pySliceTo (files.insertionSort nameLe) lim).length =
          min (files.insertionSort nameLe).length lim.toNat := by
        rw [length_pySliceTo_of_nonneg _ hnn, Nat.min_comm]
      refine ⟨hmin, fun hlt => ?_⟩
      show (pySliceTo (files.insertionSort nameLe) lim).length <
        (files.insertionSort nameLe).length
      rw [hmin]
      exact lt_of_le_of_lt (Nat.min_le_right _ _) hlt
  · intro r hr herr
    rcases list_by_prefix_cases cfg prov args r hr with ⟨-, h500⟩ |
      ⟨lim2, blobs, files, ns, -, hpi2, -, -, hsucc⟩
    · subst h500
      simp at herr
    · rw [hl] at hpi2
      obtain rfl : lim = lim2 := Option.some.inj hpi2
      subst hsucc
      have hmin : (pySliceTo (collapseLatest (latestFlag args)
          (files.insertionSort updGe)) lim).length =
          min (collapseLatest (latestFlag args) (files.insertionSort updGe)).length
            lim.toNat := by
        rw [length_pySliceTo_of_nonneg _ hnn, Nat.min_comm]
      refine ⟨hmin, fun hlt => ?_⟩
      show (pySliceTo (collapseLatest (latestFlag args)
          (files.insertionSort updGe)) lim).length <
        (collapseLatest (latestFlag args) (files.insertionSort updGe)).length
      rw [hmin]
      exact lt_of_le_of_lt (Nat.min_le_right _ _) hlt

/-- C10 witness: the amended theorem applied to the demo provider with
`limit=1`: count 2, one file returned, and `1 < 2` gives the strict drop. -/
theorem count_is_pre_truncation_witness :
    respDaily1.files.length = min respDaily1.count (1 : Int).toNat ∧
    ((1 : Int).toNat < respDaily1.count → respDaily1.files.length < respDaily1.count) :=
  (count_is_pre_truncation ⟨"b"⟩ provA argsDaily1 "t" 1 (by decide) (by decide)).1
    respDaily1 (by decide) rfl

end Bluedata
